import Mathlib

/-!
Shallow embedding of the `grepr` line-search utility (src/lib.rs, src/main.rs)
and proofs of its specification properties.

The regex engine, the operating system's metadata/walk primitives and the
byte streams are external to the repository; they are modelled abstractly:
a pattern is a Boolean predicate on strings, and a `Fs` value supplies the
answers the OS would give (metadata probes, directory walks, file contents
as a sequence of `read_line` results).
-/

namespace Grepr

/-- Outcome of one `read_line` call on an open source: either a line
(terminator included, as `BufRead::read_line` keeps it) or an I/O failure. -/
inductive ReadEvent where
  | line (s : String)
  | ioError (msg : String)
  deriving DecidableEq, Repr

/-- Event produced by `WalkDir` during a recursive traversal: a directory
entry (with its file-type's directory flag) or a traversal failure. -/
inductive WalkEvent where
  | entry (path : String) (isDir : Bool)
  | failure (msg : String)
  deriving DecidableEq, Repr

/-- Abstract environment: what the OS returns for each primitive the code
calls.  `meta p` models `fs::metadata(p).map(|m| m.is_dir())`; `walk p`
models the event stream of `WalkDir::new(p)`; `openFile p` models
`File::open(p)` and the subsequent reads; `stdinEvents` models reads from
standard input. -/
structure Fs where
  meta : String → Except String Bool
  walk : String → List WalkEvent
  openFile : String → Except String (List ReadEvent)
  stdinEvents : List ReadEvent

/-- Embeds `Config` from src/lib.rs: the compiled pattern is modelled by
its matching predicate. -/
structure Config where
  pattern : String → Bool
  files : List String
  recursive : Bool
  count : Bool
  invert_match : Bool

/-- One emitted console line, tagged by channel: `out` for `println!`,
`err` for `eprintln!`. -/
inductive Out where
  | out (s : String)
  | err (s : String)
  deriving DecidableEq, Repr

/-- Embeds the loop of `find_lines` (src/lib.rs:169-178): read events in
order, push each accepted line, stop with the error on the first failed
read (the `?` discards the lines accumulated so far). -/
def findLinesLoop (p : String → Bool) (invert_match : Bool) :
    List ReadEvent → List String → Except String (List String)
  | [], lines => Except.ok lines
  | ReadEvent.ioError e :: _, _ => Except.error e
  | ReadEvent.line s :: rest, lines =>
      findLinesLoop p invert_match rest
        (if p s == !invert_match then lines ++ [s] else lines)

/-- Embeds `find_lines` (src/lib.rs:166-180). -/
def find_lines (events : List ReadEvent) (p : String → Bool)
    (invert_match : Bool) : Except String (List String) :=
  findLinesLoop p invert_match events []

/-- Splits a text into the chunks successive `read_line` calls return:
each chunk keeps its trailing `\n`; a final chunk without `\n` is returned
as-is; empty text yields no chunks. -/
def readLinesAux : List Char → List Char → List (List Char)
  | [], [] => []
  | [], acc => [acc.reverse]
  | c :: cs, acc =>
      if c = '\n' then (acc.reverse ++ [c]) :: readLinesAux cs []
      else readLinesAux cs (c :: acc)

/-- Lines of a text as `read_line` produces them (terminators kept). -/
def readLines (text : String) : List String :=
  (readLinesAux text.data []).map List.asString

/-- Read events of an error-free source holding the given text. -/
def textEvents (text : String) : List ReadEvent :=
  (readLines text).map ReadEvent.line

/-- Scans an error-free textual source with `find_lines`. -/
def findLinesOfText (text : String) (p : String → Bool)
    (invert_match : Bool) : Except String (List String) :=
  find_lines (textEvents text) p invert_match

/-- Embeds the closure of the non-recursive branch of `find_files`
(src/lib.rs:157-161): `if path != "-" && fs::metadata(path)?.is_dir()`,
with the `?` early-returning the probe's error and the `&&`
short-circuiting so that `"-"` is never probed. -/
def resolveOne (fs : Fs) (path : String) : Except String String :=
  if path ≠ "-" then
    match fs.meta path with
    | Except.error e => Except.error e
    | Except.ok isDir =>
        if isDir then Except.error (path ++ " is a directory")
        else Except.ok path
  else Except.ok path

/-- Embeds the `filter_map` closure of the recursive branch of
`find_files` (src/lib.rs:142-150): traversal failures become `Err`
entries, directories are dropped, other entries become `Ok` paths. -/
def walkToEntry : WalkEvent → Option (Except String String)
  | WalkEvent.entry _ true => none
  | WalkEvent.entry q false => some (Except.ok q)
  | WalkEvent.failure m => some (Except.error m)

/-- Embeds the `flat_map` closure of the recursive branch of `find_files`
(src/lib.rs:137-152): the sentinel resolves directly, any other path is
walked and its events mapped through `walkToEntry`. -/
def resolveRec (fs : Fs) (path : String) : List (Except String String) :=
  if path = "-" then [Except.ok "-"]
  else (fs.walk path).filterMap walkToEntry

/-- Embeds `find_files` (src/lib.rs:134-164). -/
def find_files (fs : Fs) (paths : List String) (recursive : Bool) :
    List (Except String String) :=
  if recursive then paths.flatMap (resolveRec fs)
  else paths.map (resolveOne fs)

/-- Embeds `open` (src/lib.rs:127-132): `"-"` opens standard input
(never fails), anything else opens the named file. -/
def openSrc (fs : Fs) (filename : String) :
    Except String (List ReadEvent) :=
  if filename = "-" then Except.ok fs.stdinEvents
  else fs.openFile filename

/-- Embeds Rust's `str::trim`: whitespace removed from both ends. -/
def rustTrim (s : String) : String :=
  List.asString
    (((s.data.dropWhile Char.isWhitespace).reverse.dropWhile
      Char.isWhitespace).reverse)

/-- Embeds the body of the `for entry in entries` loop of `run`
(src/lib.rs:89-122) for one entry, emitting the console lines it prints. -/
def processEntry (fs : Fs) (config : Config) (is_single_file : Bool)
    (entry : Except String String) : List Out :=
  match entry with
  | Except.error e => [Out.err e]
  | Except.ok filename =>
    match openSrc fs filename with
    | Except.error e => [Out.err (filename ++ ": " ++ e)]
    | Except.ok events =>
      match find_lines events config.pattern config.invert_match with
      | Except.error e => [Out.err (filename ++ ": " ++ e)]
      | Except.ok ms =>
        if config.count then
          [Out.out (if is_single_file || filename == "-" then
            toString ms.length
          else filename ++ ": " ++ toString ms.length)]
        else
          ms.map (fun s =>
            Out.out (if is_single_file || filename == "-" then rustTrim s
              else filename ++ ": " ++ rustTrim s))

/-- Embeds the `for` loop of `run` (src/lib.rs:88-123): entries processed
in order with the single-source flag fixed. -/
def runLoop (fs : Fs) (config : Config) (is_single_file : Bool) :
    List (Except String String) → List Out
  | [] => []
  | entry :: rest =>
      processEntry fs config is_single_file entry ++
        runLoop fs config is_single_file rest

/-- Embeds `run` (src/lib.rs:85-125): resolve all paths, fix the
single-source flag from the entry count, process each entry, return
`Ok(())`.  The second component is the ordered console output. -/
def run (fs : Fs) (config : Config) : Except String Unit × List Out :=
  let entries := find_files fs config.files config.recursive
  let is_single_file := entries.length == 1
  (Except.ok (), runLoop fs config is_single_file entries)

/-- Embeds `main` (src/main.rs): exit status 1 when argument parsing /
pattern compilation fails or `run` fails, 0 otherwise. -/
def mainExitCode (fs : Fs) (argsResult : Except String Config) : Nat :=
  match argsResult with
  | Except.error _ => 1
  | Except.ok config =>
    match (run fs config).1 with
    | Except.error _ => 1
    | Except.ok _ => 0

/-! ## Lemmas about the line scanner -/

/-- On an error-free stream the loop returns the accumulator followed by
the accepted lines, in input order. -/
theorem findLinesLoop_lines (p : String → Bool) (invert_match : Bool)
    (ls : List String) (acc : List String) :
    findLinesLoop p invert_match (ls.map ReadEvent.line) acc =
      Except.ok (acc ++ ls.filter (fun s => p s == !invert_match)) := by
  induction ls generalizing acc with
  | nil => simp [findLinesLoop]
  | cons s rest ih =>
      cases hps : (p s == !invert_match) with
      | false => simp [findLinesLoop, hps, ih, List.filter_cons]
      | true => simp [findLinesLoop, hps, ih, List.filter_cons]

/-- The first failed read aborts the loop with that error, whatever was
accumulated before it. -/
theorem findLinesLoop_ioError (p : String → Bool) (invert_match : Bool)
    (ls : List String) (e : String) (rest : List ReadEvent)
    (acc : List String) :
    findLinesLoop p invert_match
      (ls.map ReadEvent.line ++ ReadEvent.ioError e :: rest) acc =
      Except.error e := by
  induction ls generalizing acc with
  | nil => simp [findLinesLoop]
  | cons s tl ih => simp [findLinesLoop, ih]

/-- Closed form of `find_lines` on an error-free textual source: the
lines that satisfy `p s == !invert_match`, in order. -/
theorem find_lines_textEvents (text : String) (p : String → Bool)
    (invert_match : Bool) :
    find_lines (textEvents text) p invert_match =
      Except.ok ((readLines text).filter
        (fun s => p s == !invert_match)) := by
  simp [find_lines, textEvents, findLinesLoop_lines]

/-- Boolean bridge: a line passes the code's test iff the match result
differs from the invert flag. -/
theorem accept_cond_iff (b i : Bool) : (b == !i) = true ↔ b ≠ i := by
  cases b <;> cases i <;> decide

/-- C1. A line read from a source is accepted by the scanner iff the
pattern's verdict on the line (terminator included, as `readLines` keeps
it) differs from the invert flag: invert off keeps the matching lines,
invert on keeps the non-matching ones. -/
theorem find_lines_accepts_iff (text : String) (p : String → Bool)
    (invert_match : Bool) (l : String) :
    findLinesOfText text p invert_match =
      Except.ok ((readLines text).filter
        (fun s => p s == !invert_match)) ∧
    (l ∈ (readLines text).filter (fun s => p s == !invert_match) ↔
      l ∈ readLines text ∧ p l ≠ invert_match) := by
  refine ⟨find_lines_textEvents text p invert_match, ?_⟩
  rw [List.mem_filter, accept_cond_iff]

/-- C8. Scanning the same source with invert off and invert on
partitions its lines: the two result counts add up to the line count,
and each line of the source belongs to exactly one of the two results. -/
theorem scan_partition (text : String) (p : String → Bool) :
    ∃ A B,
      findLinesOfText text p false = Except.ok A ∧
      findLinesOfText text p true = Except.ok B ∧
      A.length + B.length = (readLines text).length ∧
      ∀ l ∈ readLines text, (l ∈ A ∧ l ∉ B) ∨ (l ∈ B ∧ l ∉ A) := by
  refine ⟨(readLines text).filter (fun s => p s == !false),
    (readLines text).filter (fun s => p s == !true),
    find_lines_textEvents text p false, find_lines_textEvents text p true,
    ?_, ?_⟩
  · induction readLines text with
    | nil => rfl
    | cons s rest ih =>
        cases hps : p s with
        | false =>
            rw [List.filter_cons, List.filter_cons, hps,
              if_neg (by decide), if_pos (by decide), List.length_cons,
              List.length_cons]
            omega
        | true =>
            rw [List.filter_cons, List.filter_cons, hps,
              if_pos (by decide), if_neg (by decide), List.length_cons,
              List.length_cons]
            omega
  · intro l hl
    cases hpl : p l with
    | true =>
        exact Or.inl ⟨List.mem_filter.mpr ⟨hl, by simp [hpl]⟩,
          fun hc => by simpa [hpl] using (List.mem_filter.mp hc).2⟩
    | false =>
        exact Or.inr ⟨List.mem_filter.mpr ⟨hl, by simp [hpl]⟩,
          fun hc => by simpa [hpl] using (List.mem_filter.mp hc).2⟩

/-- C10. A read error mid-stream makes the scan return only the error:
the lines accepted before the failure are discarded, and the
orchestrator prints only the `<filename>: <cause>` error line for that
source, nothing on the normal channel. -/
theorem scan_error_discards (fs : Fs) (config : Config)
    (is_single_file : Bool) (filename : String) (pre : List String)
    (e : String) (rest : List ReadEvent)
    (hopen : openSrc fs filename =
      Except.ok (pre.map ReadEvent.line ++ ReadEvent.ioError e :: rest)) :
    find_lines (pre.map ReadEvent.line ++ ReadEvent.ioError e :: rest)
      config.pattern config.invert_match = Except.error e ∧
    processEntry fs config is_single_file (Except.ok filename) =
      [Out.err (filename ++ ": " ++ e)] := by
  have hscan := findLinesLoop_ioError config.pattern config.invert_match
    pre e rest []
  refine ⟨hscan, ?_⟩
  simp [processEntry, hopen, find_lines, hscan]

/-- Witness for C10: a concrete source whose second read fails with
`boom` after a first line that matches. -/
theorem scan_error_discards_witness :
    find_lines
      ([ReadEvent.line "x\n", ReadEvent.ioError "boom"])
      (fun _ => true) false = Except.error "boom" ∧
    processEntry
      ⟨fun _ => Except.error "", fun _ => [],
        fun _ => Except.ok [ReadEvent.line "x\n", ReadEvent.ioError "boom"],
        []⟩
      ⟨fun _ => true, ["f"], false, false, false⟩
      true (Except.ok "f") = [Out.err ("f" ++ ": " ++ "boom")] := by
  have h := scan_error_discards
    ⟨fun _ => Except.error "", fun _ => [],
      fun _ => Except.ok [ReadEvent.line "x\n", ReadEvent.ioError "boom"],
      []⟩
    ⟨fun _ => true, ["f"], false, false, false⟩
    true "f" ["x\n"] "boom" [] (by simp [openSrc])
  simpa using h

/-! ## Path resolution -/

/-- C2. Non-recursive resolution yields one entry per input path in
input order; the sentinel resolves to `Ok "-"` for every filesystem
(never probed), a directory to `Err "<path> is a directory"`, an
ordinary file to `Ok path`, and a failed metadata probe to `Err` with
the probe's message. -/
theorem find_files_nonrecursive_spec (fs : Fs) (paths : List String)
    (_hne : paths ≠ []) :
    (find_files fs paths false).length = paths.length ∧
    (∀ (i : Nat) (path : String), paths[i]? = some path →
      (find_files fs paths false)[i]? = some (resolveOne fs path)) ∧
    (∀ fs' : Fs, resolveOne fs' "-" = Except.ok "-") ∧
    (∀ path e, path ≠ "-" → fs.meta path = Except.error e →
      resolveOne fs path = Except.error e) ∧
    (∀ path, path ≠ "-" → fs.meta path = Except.ok true →
      resolveOne fs path = Except.error (path ++ " is a directory")) ∧
    (∀ path, path ≠ "-" → fs.meta path = Except.ok false →
      resolveOne fs path = Except.ok path) := by
  refine ⟨by simp [find_files], ?_, ?_, ?_, ?_, ?_⟩
  · intro i path h
    simp [find_files, List.getElem?_map, h]
  · intro fs'
    simp [resolveOne]
  · intro path e hp hm
    simp [resolveOne, hp, hm]
  · intro path hp hm
    simp [resolveOne, hp, hm]
  · intro path hp hm
    simp [resolveOne, hp, hm]

/-- Metadata oracle of the concrete filesystem used to witness C2:
`f` is a file, `d` is a directory, everything else fails the probe. -/
def metaW2 : String → Except String Bool := fun path =>
  if path = "f" then Except.ok false
  else if path = "d" then Except.ok true
  else Except.error ("no such file: " ++ path)

/-- Concrete filesystem used to witness C2. -/
def fsW2 : Fs := ⟨metaW2, fun _ => [], fun _ => Except.error "", []⟩

/-- Witness for C2 at a concrete list holding the sentinel, a file, a
directory and a nonexistent path. -/
theorem find_files_nonrecursive_spec_witness :
    (find_files fsW2 ["-", "f", "d", "g"] false).length =
      (["-", "f", "d", "g"] : List String).length ∧
    (∀ (i : Nat) (path : String), (["-", "f", "d", "g"] : List String)[i]? = some path →
      (find_files fsW2 ["-", "f", "d", "g"] false)[i]? =
        some (resolveOne fsW2 path)) ∧
    (∀ fs' : Fs, resolveOne fs' "-" = Except.ok "-") ∧
    (∀ path e, path ≠ "-" → fsW2.meta path = Except.error e →
      resolveOne fsW2 path = Except.error e) ∧
    (∀ path, path ≠ "-" → fsW2.meta path = Except.ok true →
      resolveOne fsW2 path = Except.error (path ++ " is a directory")) ∧
    (∀ path, path ≠ "-" → fsW2.meta path = Except.ok false →
      resolveOne fsW2 path = Except.ok path) :=
  find_files_nonrecursive_spec fsW2 ["-", "f", "d", "g"]
    (List.cons_ne_nil _ _)

/-- C3. Recursive resolution: the sentinel resolves directly to
`Ok "-"` for every filesystem (no traversal); every output entry is
either that sentinel entry or derived from a walk event of a non-sentinel
argument — `Ok f` only from a non-directory event for `f`, `Err m` from a
traversal failure — so no directory is ever among the `Ok` entries; and
every non-directory file discovered under an argument does appear. -/
theorem find_files_recursive_spec (fs : Fs) (paths : List String)
    (_hne : paths ≠ []) :
    (∀ fs' : Fs, resolveRec fs' "-" = [Except.ok "-"]) ∧
    ("-" ∈ paths → Except.ok "-" ∈ find_files fs paths true) ∧
    (∀ x ∈ find_files fs paths true, ∃ path ∈ paths,
      (path = "-" ∧ x = Except.ok "-") ∨
      (path ≠ "-" ∧
        ((∃ f, x = Except.ok f ∧ WalkEvent.entry f false ∈ fs.walk path) ∨
         (∃ m, x = Except.error m ∧
           WalkEvent.failure m ∈ fs.walk path)))) ∧
    (∀ path ∈ paths, path ≠ "-" → ∀ f,
      WalkEvent.entry f false ∈ fs.walk path →
      Except.ok f ∈ find_files fs paths true) := by
  refine ⟨?_, ?_, ?_, ?_⟩
  · intro fs'
    simp [resolveRec]
  · intro h
    rw [find_files, if_pos rfl, List.mem_flatMap]
    exact ⟨"-", h, by simp [resolveRec]⟩
  · intro x hx
    rw [find_files, if_pos rfl, List.mem_flatMap] at hx
    obtain ⟨path, hpath, hxr⟩ := hx
    by_cases hp : path = "-"
    · subst hp
      rw [resolveRec, if_pos rfl, List.mem_singleton] at hxr
      exact ⟨"-", hpath, Or.inl ⟨rfl, hxr⟩⟩
    · rw [resolveRec, if_neg hp, List.mem_filterMap] at hxr
      obtain ⟨ev, hev, hsome⟩ := hxr
      refine ⟨path, hpath, Or.inr ⟨hp, ?_⟩⟩
      cases ev with
      | entry q isDir =>
          cases isDir with
          | true => simp [walkToEntry] at hsome
          | false =>
              rw [walkToEntry] at hsome
              exact Or.inl ⟨q, (Option.some_inj.mp hsome).symm, hev⟩
      | failure m =>
          rw [walkToEntry] at hsome
          exact Or.inr ⟨m, (Option.some_inj.mp hsome).symm, hev⟩
  · intro path hpath hp f hev
    rw [find_files, if_pos rfl, List.mem_flatMap]
    refine ⟨path, hpath, ?_⟩
    rw [resolveRec, if_neg hp, List.mem_filterMap]
    exact ⟨WalkEvent.entry f false, hev, rfl⟩

/-- Walk oracle of the concrete filesystem used to witness C3: walking
`r` yields the directory itself, one file beneath it and one traversal
failure. -/
def walkW3 : String → List WalkEvent := fun path =>
  if path = "r" then
    [WalkEvent.entry "r" true, WalkEvent.entry "r/a.txt" false,
      WalkEvent.failure "denied"]
  else []

/-- Concrete filesystem used to witness C3. -/
def fsW3 : Fs := ⟨fun _ => Except.error "", walkW3,
  fun _ => Except.error "", []⟩

/-- Witness for C3 at the concrete argument list `["-", "r"]`. -/
theorem find_files_recursive_spec_witness :
    (∀ fs' : Fs, resolveRec fs' "-" = [Except.ok "-"]) ∧
    ("-" ∈ (["-", "r"] : List String) →
      Except.ok "-" ∈ find_files fsW3 ["-", "r"] true) ∧
    (∀ x ∈ find_files fsW3 ["-", "r"] true,
      ∃ path ∈ (["-", "r"] : List String),
      (path = "-" ∧ x = Except.ok "-") ∨
      (path ≠ "-" ∧
        ((∃ f, x = Except.ok f ∧
          WalkEvent.entry f false ∈ fsW3.walk path) ∨
         (∃ m, x = Except.error m ∧
           WalkEvent.failure m ∈ fsW3.walk path)))) ∧
    (∀ path ∈ (["-", "r"] : List String), path ≠ "-" → ∀ f,
      WalkEvent.entry f false ∈ fsW3.walk path →
      Except.ok f ∈ find_files fsW3 ["-", "r"] true) :=
  find_files_recursive_spec fsW3 ["-", "r"] (List.cons_ne_nil _ _)

/-! ## Orchestration -/

/-- The entry loop distributes over list append. -/
theorem runLoop_append (fs : Fs) (config : Config) (is_single_file : Bool)
    (xs ys : List (Except String String)) :
    runLoop fs config is_single_file (xs ++ ys) =
      runLoop fs config is_single_file xs ++
        runLoop fs config is_single_file ys := by
  induction xs with
  | nil => simp [runLoop]
  | cons x xs ih => simp [runLoop, ih]

/-- The entry loop is the flat map of the per-entry processing, with one
fixed single-source flag for every entry. -/
theorem runLoop_eq_flatMap (fs : Fs) (config : Config)
    (is_single_file : Bool) (entries : List (Except String String)) :
    runLoop fs config is_single_file entries =
      entries.flatMap (processEntry fs config is_single_file) := by
  induction entries with
  | nil => rfl
  | cons x xs ih => simp [runLoop, ih]

/-- C4. The single-source flag is computed once from the total number of
resolved entries — error entries included — before any source is opened,
and that same value parameterizes the processing of every entry of the
run. -/
theorem run_single_source_flag (fs : Fs) (config : Config) :
    (run fs config).2 =
      (find_files fs config.files config.recursive).flatMap
        (processEntry fs config
          ((find_files fs config.files config.recursive).length == 1)) := by
  simp [run, runLoop_eq_flatMap]

/-- C5. In count mode a successfully scanned source prints exactly one
line on the normal channel: the bare count when the run is single-source
or the source is the stdin sentinel, and `<filename>: <count>` otherwise;
the count is the number of accepted lines of that source. -/
theorem count_mode_output (fs : Fs) (config : Config)
    (is_single_file : Bool) (filename text : String)
    (hcount : config.count = true)
    (hopen : openSrc fs filename = Except.ok (textEvents text)) :
    processEntry fs config is_single_file (Except.ok filename) =
      [Out.out (if is_single_file || filename == "-" then
          toString ((readLines text).filter
            (fun s => config.pattern s == !config.invert_match)).length
        else filename ++ ": " ++ toString ((readLines text).filter
            (fun s => config.pattern s == !config.invert_match)).length)]
    := by
  simp [processEntry, hopen, find_lines_textEvents, hcount]

/-- Concrete filesystem used to witness C5: every file opens onto the
two-line text `a\nb\n`. -/
def fsW5 : Fs := ⟨fun _ => Except.error "", fun _ => [],
  fun _ => Except.ok (textEvents "a\nb\n"), []⟩

/-- Witness for C5: a multi-source count-mode run prints the prefixed
count for the concrete file `f`. -/
theorem count_mode_output_witness :
    processEntry fsW5 ⟨fun _ => true, ["f", "g"], false, true, false⟩
      false (Except.ok "f") =
      [Out.out (if false || "f" == "-" then
          toString ((readLines "a\nb\n").filter
            (fun s =>
              Config.pattern ⟨fun _ => true, ["f", "g"], false, true, false⟩
                s == !false)).length
        else "f" ++ ": " ++ toString ((readLines "a\nb\n").filter
            (fun s =>
              Config.pattern ⟨fun _ => true, ["f", "g"], false, true, false⟩
                s == !false)).length)] :=
  count_mode_output fsW5 ⟨fun _ => true, ["f", "g"], false, true, false⟩
    false "f" "a\nb\n" rfl rfl

/-- C6 counterexample. The claim says the leading whitespace of an
accepted line is preserved in line mode; the code calls `str::trim`,
which removes it: the accepted line `"  x\n"` is printed as `"x"`, not
`"  x"`. -/
theorem line_mode_leading_whitespace_cex :
    processEntry
      ⟨fun _ => Except.error "", fun _ => [], fun _ => Except.error "",
        [ReadEvent.line "  x\n"]⟩
      ⟨fun _ => true, ["-"], false, false, false⟩
      true (Except.ok "-") = [Out.out "x"] ∧
    ("x" : String) ≠ "  x" := by
  exact ⟨by decide, by decide⟩

/-- C6 (amended). In line mode every accepted line is printed with
whitespace trimmed from both ends — the trailing terminator and trailing
whitespace are stripped, and leading whitespace is removed as well — with
the same filename-prefixing rule as count mode applied per line. -/
theorem line_mode_output (fs : Fs) (config : Config)
    (is_single_file : Bool) (filename text : String)
    (hline : config.count = false)
    (hopen : openSrc fs filename = Except.ok (textEvents text)) :
    processEntry fs config is_single_file (Except.ok filename) =
      ((readLines text).filter
        (fun s => config.pattern s == !config.invert_match)).map
        (fun s => Out.out (if is_single_file || filename == "-" then
          rustTrim s else filename ++ ": " ++ rustTrim s)) := by
  simp [processEntry, hopen, find_lines_textEvents, hline]

/-- Concrete filesystem used to witness C6: every file opens onto the
one-line text ` a \n`. -/
def fsW6 : Fs := ⟨fun _ => Except.error "", fun _ => [],
  fun _ => Except.ok (textEvents " a \n"), []⟩

/-- Witness for C6 (amended) at the concrete file `f` in a multi-source
line-mode run. -/
theorem line_mode_output_witness :
    processEntry fsW6 ⟨fun _ => true, ["f", "g"], false, false, false⟩
      false (Except.ok "f") =
      ((readLines " a \n").filter
        (fun s =>
          Config.pattern ⟨fun _ => true, ["f", "g"], false, false, false⟩
            s == !false)).map
        (fun s => Out.out (if false || "f" == "-" then
          rustTrim s else "f" ++ ": " ++ rustTrim s)) :=
  line_mode_output fsW6 ⟨fun _ => true, ["f", "g"], false, false, false⟩
    false "f" " a \n" rfl rfl

/-- Error message a failing entry produces, with the stage the failure
comes from folded in: the resolution error itself, or the open / scan
error prefixed by the filename; `none` when the entry scans cleanly. -/
def entryFailure (fs : Fs) (config : Config) :
    Except String String → Option String
  | Except.error e => some e
  | Except.ok filename =>
    match openSrc fs filename with
    | Except.error e => some (filename ++ ": " ++ e)
    | Except.ok events =>
      match find_lines events config.pattern config.invert_match with
      | Except.error e => some (filename ++ ": " ++ e)
      | Except.ok _ => none

/-- C7. A failing entry — unresolvable path, open failure or scan
failure — emits exactly one message, on the error channel, and the loop
goes on: the output of the whole run splits around it, the entries after
it processed exactly as they are in any run reaching them with the same
flag. -/
theorem per_entry_error_isolation (fs : Fs) (config : Config)
    (is_single_file : Bool) (pre post : List (Except String String))
    (entry : Except String String) (msg : String)
    (hfail : entryFailure fs config entry = some msg) :
    processEntry fs config is_single_file entry = [Out.err msg] ∧
    runLoop fs config is_single_file (pre ++ entry :: post) =
      runLoop fs config is_single_file pre ++
        Out.err msg :: runLoop fs config is_single_file post := by
  have h1 : processEntry fs config is_single_file entry = [Out.err msg] := by
    cases entry with
    | error e =>
        simp [entryFailure] at hfail
        simp [processEntry, hfail]
    | ok filename =>
        cases hopen : openSrc fs filename with
        | error e =>
            simp [entryFailure, hopen] at hfail
            simp [processEntry, hopen, hfail]
        | ok events =>
            cases hscan :
                find_lines events config.pattern config.invert_match with
            | error e =>
                simp [entryFailure, hopen, hscan] at hfail
                simp [processEntry, hopen, hscan, hfail]
            | ok ms => simp [entryFailure, hopen, hscan] at hfail
  refine ⟨h1, ?_⟩
  rw [runLoop_append]
  simp [runLoop, h1]

/-- Witness for C7: an unresolvable-path entry between two sentinel
entries in a concrete run. -/
theorem per_entry_error_isolation_witness :
    processEntry fsW5 ⟨fun _ => true, ["f"], false, false, false⟩ false
      (Except.error "bad path") = [Out.err "bad path"] ∧
    runLoop fsW5 ⟨fun _ => true, ["f"], false, false, false⟩ false
      ([Except.ok "f"] ++ Except.error "bad path" :: [Except.ok "f"]) =
      runLoop fsW5 ⟨fun _ => true, ["f"], false, false, false⟩ false
        [Except.ok "f"] ++
        Out.err "bad path" ::
          runLoop fsW5 ⟨fun _ => true, ["f"], false, false, false⟩ false
            [Except.ok "f"] :=
  per_entry_error_isolation fsW5
    ⟨fun _ => true, ["f"], false, false, false⟩ false
    [Except.ok "f"] [Except.ok "f"] (Except.error "bad path") "bad path"
    rfl

/-- C9. `run` returns `Ok(())` for every configuration and filesystem,
whatever per-entry errors occur, so the process exit status is non-zero
exactly when argument parsing or pattern compilation fails. -/
theorem run_ok_exit_status :
    (∀ (fs : Fs) (config : Config), (run fs config).1 = Except.ok ()) ∧
    (∀ (fs : Fs) (config : Config),
      mainExitCode fs (Except.ok config) = 0) ∧
    (∀ (fs : Fs) (e : String), mainExitCode fs (Except.error e) = 1) :=
  ⟨fun _ _ => rfl, fun _ _ => rfl, fun _ _ => rfl⟩

end Grepr
